import Mathlib

/-
Shallow embedding of `scidatacontainer_db/parsers.py`: the version-aware
container ingestion pipeline of the django-scidatacontainer metadata catalog.

Python values read from JSON are modelled by `JValue`; the database visible to
the parser (datasets, keywords, embedded files, container types) by `DB`;
Python exceptions by `PyErr`.  Django model classes (`models.py`) and
`test_utils.parse_test_data` are not part of the given sources; where the
pipeline calls into them, the corresponding definition is modelled from the
spec and says so in its doc comment.
-/

namespace SciData

/-- A value produced by Python's `json.load`: null, booleans, numbers
(restricted to integers; floats play no role in any constraint here), strings,
arrays and objects.  Objects keep their key order, like Python dicts. -/
inductive JValue where
  | jnull : JValue
  | jbool : Bool → JValue
  | jnum : Int → JValue
  | jstr : String → JValue
  | jlist : List JValue → JValue
  | jdict : List (String × JValue) → JValue
  deriving Repr

/-- Structural equality of JSON values, as Python `==` computes it on the
values returned by `json.load`. -/
def jeq : JValue → JValue → Bool
  | .jnull, .jnull => true
  | .jbool a, .jbool b => a == b
  | .jnum a, .jnum b => a == b
  | .jstr a, .jstr b => a == b
  | .jlist xs, .jlist ys => jeqList xs ys
  | .jdict xs, .jdict ys => jeqPairs xs ys
  | _, _ => false
where
  jeqList : List JValue → List JValue → Bool
    | [], [] => true
    | x :: xs, y :: ys => jeq x y && jeqList xs ys
    | _, _ => false
  jeqPairs : List (String × JValue) → List (String × JValue) → Bool
    | [], [] => true
    | (k, x) :: xs, (l, y) :: ys => k == l && jeq x y && jeqPairs xs ys
    | _, _ => false

/-- Python truthiness of a JSON-derived value: `None`, `False`, `0`, `""`,
`[]` and `\x7b\x7d` are falsy, everything else truthy.  The source guard
`if in_dict[key] and in_dict[key] != []` is exactly truthiness, the extra
`!= []` comparison being redundant (an empty list is already falsy). -/
def truthy : JValue → Bool
  | .jnull => false
  | .jbool b => b
  | .jnum n => n != 0
  | .jstr s => s.length != 0
  | .jlist xs => !xs.isEmpty
  | .jdict xs => !xs.isEmpty

/-- Python `str()` / `repr()` of a JSON-derived value.  `repr` quotes strings
and renders containers with Python literal syntax; `str` of a string is the
string itself.  Only the string case is exercised by the constraint table
(`str` is the coercer of plain text fields). -/
def pyRepr : JValue → String
  | .jnull => "None"
  | .jbool b => if b then "True" else "False"
  | .jnum n => toString n
  | .jstr s => "'" ++ s ++ "'"
  | .jlist xs => "[" ++ ", ".intercalate (pyReprList xs) ++ "]"
  | .jdict xs => "\x7b" ++ ", ".intercalate (pyReprPairs xs) ++ "\x7d"
where
  pyReprList : List JValue → List String
    | [] => []
    | x :: xs => pyRepr x :: pyReprList xs
  pyReprPairs : List (String × JValue) → List String
    | [] => []
    | (k, v) :: xs => ("'" ++ k ++ "': " ++ pyRepr v) :: pyReprPairs xs

/-- Python `str()` of a JSON-derived value. -/
def pyStr : JValue → String
  | .jstr s => s
  | v => pyRepr v

/-- The Python exceptions that can cross the boundaries modelled here. -/
inductive PyErr where
  | metaDB : Nat → String → PyErr
  | valueError : String → PyErr
  | typeError : String → PyErr
  | keyError : String → PyErr
  | attributeError : String → PyErr
  | integrityError : String → PyErr
  | validationError : String → PyErr
  deriving Repr, DecidableEq

/-- Python `str()` of an exception, for the generic 500 diagnostic. -/
def pyErrStr : PyErr → String
  | .metaDB _ m => m
  | .valueError m => m
  | .typeError m => m
  | .keyError k => "'" ++ k ++ "'"
  | .attributeError m => m
  | .integrityError m => m
  | .validationError m => m

/- ### Version handling (`packaging.version`) -/

/-- Turn a digit list into a number; `none` when empty or non-digit. -/
def digitsToNat : List Char → Option Nat
  | [] => none
  | cs => go cs 0
where
  go : List Char → Nat → Option Nat
    | [], acc => some acc
    | c :: cs, acc =>
      if c.isDigit then go cs (acc * 10 + (c.toNat - '0'.toNat)) else none

/-- Split a character list on the dot separator, like `str.split(".")`. -/
def splitDots : List Char → List (List Char)
  | [] => [[]]
  | c :: rest =>
    if c == '.' then [] :: splitDots rest
    else
      match splitDots rest with
      | g :: gs => (c :: g) :: gs
      | [] => [[c]]

/-- `packaging.version.parse`, restricted to plain numeric releases such as
`0.3`, `0.5.1`, `1.0` (the only shape that occurs in the table and in the
claims): the dotted string becomes its list of numeric components.  Strings
outside this shape are rejected, as `packaging` rejects malformed versions
with `InvalidVersion` (a `ValueError`). -/
def parseVersion (s : String) : Option (List Nat) :=
  (splitDots s.data).mapM digitsToNat

/-- Release-tuple comparison of `packaging`: componentwise, with missing
trailing components reading as zero (`1.0 == 1.0.0`). -/
def verLT : List Nat → List Nat → Bool
  | [], bs => bs.any (fun b => b ≠ 0)
  | a :: as, [] => if a ≠ 0 then false else verLT as []
  | a :: as, b :: bs =>
    if a < b then true else if b < a then false else verLT as bs

/-- Render a parsed version back to its dotted string, as `str()` does on a
`packaging` `Version` of plain release shape. -/
def versionToString (v : List Nat) : String :=
  ".".intercalate (v.map toString)

/-- Lexicographic code-point comparison of strings, Python `<`. -/
def strLess : List Char → List Char → Bool
  | [], [] => false
  | [], _ :: _ => true
  | _ :: _, [] => false
  | a :: as, b :: bs =>
    if a.toNat < b.toNat then true
    else if b.toNat < a.toNat then false
    else strLess as bs

/-- Python `max` on a list of strings: lexicographic by code point, `none` on
the empty list (where `max([])` raises `ValueError`). -/
def stringMax : List String → Option String
  | [] => none
  | x :: xs => some (xs.foldl (fun a b => if strLess a.data b.data then b else a) x)

/- ### Parsed timestamps (`_datetime_parser`) -/

/-- A parsed timestamp, the result of the datetime coercer. -/
structure PyDateTime where
  year : Nat
  month : Nat
  day : Nat
  hour : Nat
  minute : Nat
  second : Nat
  utc : Bool
  deriving Repr, DecidableEq

/-- Read exactly two digits. -/
def twoDigits : List Char → Option (Nat × List Char)
  | a :: b :: rest =>
    if a.isDigit && b.isDigit then
      some ((a.toNat - '0'.toNat) * 10 + (b.toNat - '0'.toNat), rest)
    else none
  | _ => none

/-- Read exactly four digits. -/
def fourDigits : List Char → Option (Nat × List Char)
  | a :: b :: c :: d :: rest =>
    if a.isDigit && b.isDigit && c.isDigit && d.isDigit then
      some (((a.toNat - '0'.toNat) * 1000 + (b.toNat - '0'.toNat) * 100 +
             (c.toNat - '0'.toNat) * 10 + (d.toNat - '0'.toNat)), rest)
    else none
  | _ => none

/-- Read `YYYY-MM-DD` with basic range checks. -/
def parseDatePart (cs : List Char) : Option (Nat × Nat × Nat × List Char) := do
  let (y, cs) ← fourDigits cs
  match cs with
  | '-' :: cs => do
    let (m, cs) ← twoDigits cs
    match cs with
    | '-' :: cs => do
      let (d, cs) ← twoDigits cs
      if 1 ≤ m && m ≤ 12 && 1 ≤ d && d ≤ 31 then some (y, m, d, cs) else none
    | _ => none
  | _ => none

/-- Read `HH:MM:SS` with basic range checks. -/
def parseTimePart (cs : List Char) : Option (Nat × Nat × Nat × List Char) := do
  let (h, cs) ← twoDigits cs
  match cs with
  | ':' :: cs => do
    let (mi, cs) ← twoDigits cs
    match cs with
    | ':' :: cs => do
      let (s, cs) ← twoDigits cs
      if h ≤ 23 && mi ≤ 59 && s ≤ 59 then some (h, mi, s, cs) else none
    | _ => none
  | _ => none

/-- Read a `±HH:MM` UTC offset. -/
def parseOffset : List Char → Option (List Char)
  | sign :: rest =>
    if sign == '+' || sign == '-' then do
      let (_, rest) ← twoDigits rest
      match rest with
      | ':' :: rest => do
        let (_, rest) ← twoDigits rest
        some rest
      | _ => none
    else none
  | _ => none

/-- Models `datetime.datetime.fromisoformat` from the Python standard
library, restricted to its `YYYY-MM-DD[<sep>HH:MM:SS[±HH:MM]]` core grammar
(the separator may be any single character, as in CPython).  Returns `none`
where CPython raises `ValueError`. -/
def fromIsoFormat (s : String) : Option PyDateTime := do
  let (y, m, d, rest) ← parseDatePart s.toList
  match rest with
  | [] => some ⟨y, m, d, 0, 0, 0, false⟩
  | _ :: rest => do
    let (h, mi, sec, rest) ← parseTimePart rest
    match rest with
    | [] => some ⟨y, m, d, h, mi, sec, false⟩
    | rest => do
      let rest ← parseOffset rest
      match rest with
      | [] => some ⟨y, m, d, h, mi, sec, true⟩
      | _ => none

/-- Models `strptime` with format `"%Y-%m-%dT%H:%M:%S+%z"`: date, literal
`T`, time, a literal `+`, then a `%z` offset of shape `±HHMM` (the format
string really contains a plus sign before `%z`). -/
def strptimeTPlusZ (s : String) : Option PyDateTime := do
  let (y, m, d, rest) ← parseDatePart s.toList
  match rest with
  | 'T' :: rest => do
    let (h, mi, sec, rest) ← parseTimePart rest
    match rest with
    | '+' :: sign :: rest =>
      if sign == '+' || sign == '-' then do
        let (_, rest) ← fourDigits rest
        match rest with
        | [] => some ⟨y, m, d, h, mi, sec, true⟩
        | _ => none
      else none
    | _ => none
  | _ => none

/-- Models `strptime` with format `"%Y-%m-%d %H:%M:%S %Z"`: date, space,
time, space, a named timezone abbreviation (letters). -/
def strptimeSpaceZName (s : String) : Option PyDateTime := do
  let (y, m, d, rest) ← parseDatePart s.toList
  match rest with
  | ' ' :: rest => do
    let (h, mi, sec, rest) ← parseTimePart rest
    match rest with
    | ' ' :: tz =>
      if !tz.isEmpty && tz.all Char.isAlpha then some ⟨y, m, d, h, mi, sec, true⟩
      else none
    | _ => none
  | _ => none

/-- The body of `_datetime_parser`: try `fromisoformat`, then the two
`strptime` fallback formats, in that order; `none` when all three raise
`ValueError`. -/
def datetimeParse (s : String) : Option PyDateTime :=
  match fromIsoFormat s with
  | some dt => some dt
  | none =>
    match strptimeTPlusZ s with
    | some dt => some dt
    | none => strptimeSpaceZName s

/- ### The database visible to the parser -/

/-- An embedded-file row of the `File` model: name, uncompressed byte size
and, for JSON members, the parsed structured content.  Modelled from the
spec: `models.py` is not among the given sources; the spec fixes identity to
the (name, size, content) tuple. -/
structure FileRef where
  name : String
  size : Nat
  content : Option JValue
  deriving Repr

/-- The validated, coerced value of one field (the entries of the dictionary
`d` built by `_parse_validate` and `parse`). -/
inductive DomValue where
  | str : String → DomValue
  | bool : Bool → DomValue
  | datetime : PyDateTime → DomValue
  | dataset : String → DomValue
  | containerType : JValue → DomValue
  | softwareList : List JValue → DomValue
  | keywordList : List String → DomValue
  | files : List FileRef → DomValue
  | nat : Nat → DomValue
  deriving Repr

/-- A dataset row.  Modelled from the spec: a `ContainerRecord` exists either
as a placeholder (id only, created as a cross-reference target; the
`DataSetBase` rows that are not `DataSet` rows) or as a full record (the
`DataSet` rows, which by Django model inheritance are also `DataSetBase`
rows).  The primary key is `id`, so a well-formed table holds at most one
row per identifier. -/
inductive DSRow where
  | placeholder : String → DSRow
  | full : String → String → Bool → List (String × DomValue) → Option String → DSRow
  deriving Repr

/-- The identifier of a dataset row (primary key). -/
def rowId : DSRow → String
  | .placeholder i => i
  | .full i _ _ _ _ => i

/-- Whether a row is a full record (a `DataSet` row). -/
def isFull : DSRow → Bool
  | .placeholder _ => false
  | .full _ _ _ _ _ => true

/-- The database state the parser reads and mutates: dataset rows (base table
of `DataSetBase`/`DataSet`), keyword names, embedded-file rows and container
types. -/
structure DB where
  datasets : List DSRow
  keywords : List String
  files : List FileRef
  containerTypes : List JValue
  deriving Repr

/-- The empty database. -/
def emptyDB : DB := ⟨[], [], [], []⟩

/-- Number of `DataSetBase` rows with a given id: the length of
`DataSetBase.objects.filter(id=uuid)`. -/
def countId (db : DB) (id : String) : Nat :=
  (db.datasets.filter (fun r => rowId r == id)).length

/-- Number of `DataSet` (full) rows with a given id: the length of
`DataSet.objects.filter(id=uuid)`. -/
def countFullRows (db : DB) (id : String) : Nat :=
  (db.datasets.filter (fun r => rowId r == id && isFull r)).length

/-- The identifiers of all dataset rows. -/
def dbIds (db : DB) : List String := db.datasets.map rowId

/-- Well-formedness of the dataset table: identifiers are unique, which the
primary key enforces in the real database. -/
def wfDB (db : DB) : Prop := (dbIds db).Nodup

instance (db : DB) : Decidable (wfDB db) := by
  unfold wfDB; infer_instance

/-- `DataSetBase.objects.get_or_create(id=...)`: reuse any existing row with
this id (a full row is also a base row), otherwise insert a placeholder. -/
def baseGetOrCreate (db : DB) (id : String) : DB :=
  if db.datasets.any (fun r => rowId r == id) then db
  else { db with datasets := db.datasets ++ [DSRow.placeholder id] }

/-- `obj.delete()` on the base row with this id.  The primary key guarantees
at most one such row, so removing every row with the id is the same
operation. -/
def baseDelete (db : DB) (id : String) : DB :=
  { db with datasets := db.datasets.filter (fun r => rowId r != id) }

/-- The first full row with this id, `DataSet.objects.get(id=...)`. -/
def findFull (db : DB) (id : String) : Option DSRow :=
  db.datasets.find? (fun r => isFull r && rowId r == id)

/-- Python `dict.update` on an association list: existing keys are
overwritten in place, new keys appended in order. -/
def dictUpdate (d e : List (String × DomValue)) : List (String × DomValue) :=
  e.foldl (fun acc kv =>
    if acc.any (fun p => p.1 == kv.1) then
      acc.map (fun p => if p.1 == kv.1 then kv else p)
    else acc ++ [kv]) d

/-- `obj.update_attributes(d, user)` on the full row with the given id.
Modelled from the spec: `models.py` is not among the given sources; the spec
says a re-upload updates the existing record in place with field-by-field
merge semantics, owner unchanged.  The primary key guarantees at most one
matching row. -/
def updateAttributes (db : DB) (id : String) (d : List (String × DomValue)) : DB :=
  { db with datasets := db.datasets.map (fun r =>
      match r with
      | DSRow.full i o c a p =>
        if i == id then DSRow.full i o c (dictUpdate a d) p else r
      | r => r) }

/-- Creation of a new full record followed by `update_attributes`: owner set
to the caller, completeness initially false, attributes applied.  Modelled
from the spec where it leans on `models.py`. -/
def newFullRecord (db : DB) (id user : String) (d : List (String × DomValue)) : DB :=
  { db with datasets := db.datasets ++ [DSRow.full id user false d none] }

/-- `Keyword.objects.get_or_create(name=entry)` folded over a keyword list:
each name is uniqued across the catalog. -/
def keywordGetOrCreate (db : DB) (name : String) : DB :=
  if db.keywords.contains name then db
  else { db with keywords := db.keywords ++ [name] }

/-- `ContainerType.to_ContainerType`.  Modelled from the spec: the raw
dictionary becomes a structured entity, reused if an identical one already
exists. -/
def containerTypeGetOrCreate (db : DB) (v : JValue) : DB :=
  if db.containerTypes.any (jeq v) then db
  else { db with containerTypes := db.containerTypes ++ [v] }

/-- The lookup predicate of `File.objects.get_or_create`: for JSON members
the lookup carries (name, size, content), for other members (name, size). -/
def fileMatches (f : FileRef) (name : String) (size : Nat)
    (content : Option JValue) : Bool :=
  f.name == name && f.size == size &&
    (match content with
     | some c =>
       match f.content with
       | some fc => jeq fc c
       | none => false
     | none => true)

/-- `File.objects.get_or_create`: reuse the first matching row, otherwise
insert one.  Modelled from the spec where it leans on the `File` model. -/
def fileGetOrCreate (db : DB) (name : String) (size : Nat)
    (content : Option JValue) : DB × FileRef :=
  match db.files.filter (fun f => fileMatches f name size content) with
  | f :: _ => (db, f)
  | [] =>
    let f : FileRef := ⟨name, size, content⟩
    ({ db with files := db.files ++ [f] }, f)

/- ### Coercers -/

/-- The coercer entries of the constraint table: `str`, `bool`,
`_datetime_parser`, `_replaces_parser`, `_containerType_parser`,
`_used_software_parser`, `_keyword_parser`. -/
inductive Coercer where
  | toStr
  | toBool
  | toDatetime
  | toReplaces
  | toContainerType
  | toUsedSoftware
  | toKeywords
  deriving Repr, DecidableEq

/-- Apply a coercer to a raw value, threading the database (the reference and
keyword coercers create rows).  Errors are the exceptions the Python
functions raise:

* `str` and `bool` never fail;
* `_datetime_parser` raises `ValueError` on a malformed string and
  `TypeError` on a non-string (all three stdlib attempts require `str`);
* `_replaces_parser` looks up a full record and falls back to
  `get_or_create` of a placeholder — it never fails on a string id, and a
  non-string primary-key lookup is rejected by the model layer;
* `_containerType_parser` and `_used_software_parser` are modelled from the
  spec (their model classes are not among the given sources): structured
  entities from dictionaries, reused or created, order preserved;
* `_keyword_parser` iterates the list and uniques each name. -/
def applyCoercer : Coercer → DB → JValue → Except PyErr (DB × DomValue)
  | .toStr, db, v => .ok (db, .str (pyStr v))
  | .toBool, db, v => .ok (db, .bool (truthy v))
  | .toDatetime, db, v =>
    match v with
    | .jstr s =>
      match datetimeParse s with
      | some dt => .ok (db, .datetime dt)
      | none => .error (.valueError ("Invalid isoformat string: '" ++ s ++ "'"))
    | _ => .error (.typeError "fromisoformat: argument must be str")
  | .toReplaces, db, v =>
    match v with
    | .jstr id =>
      match findFull db id with
      | some _ => .ok (db, .dataset id)
      | none => .ok (baseGetOrCreate db id, .dataset id)
    | _ => .error (.validationError "value has an invalid format")
  | .toContainerType, db, v => .ok (containerTypeGetOrCreate db v, .containerType v)
  | .toUsedSoftware, db, v =>
    match v with
    | .jlist xs => .ok (db, .softwareList xs)
    | _ => .error (.typeError "object is not iterable")
  | .toKeywords, db, v =>
    match v with
    | .jlist xs =>
      if xs.all (fun x => match x with | .jstr _ => true | _ => false) then
        let ks := xs.filterMap (fun x => match x with | .jstr s => some s | _ => none)
        .ok (ks.foldl keywordGetOrCreate db, .keywordList ks)
      else .error (.typeError "keyword entries must be strings")
    | _ => .error (.typeError "object is not iterable")

/- ### The constraint table -/

/-- One section of a constraint set: an ordered dictionary from field key to
(coercer, required flag). -/
abbrev Items := List (String × Coercer × Bool)

/-- The `content` section of `_constraints_0_3` as written in the source. -/
def contentItems : Items :=
  [("uuid", .toStr, true),
   ("replaces", .toReplaces, false),
   ("containerType", .toContainerType, true),
   ("created", .toDatetime, true),
   ("modified", .toDatetime, true),
   ("static", .toBool, true),
   ("complete", .toBool, true),
   ("hash", .toStr, false),
   ("usedSoftware", .toUsedSoftware, false),
   ("modelVersion", .toStr, true)]

/-- The `meta` dictionary literal of `_constraints_0_3` as written in the
source, before module initialization finishes. -/
def metaItemsLiteral : Items :=
  [("author", .toStr, true),
   ("email", .toStr, true),
   ("comment", .toStr, false),
   ("title", .toStr, true),
   ("keywords", .toKeywords, false),
   ("description", .toStr, false)]

/-- The `meta` dictionary after module initialization.  In the source,
`_constraints_0_5_1 = _constraints_0_3.copy()` is a SHALLOW copy: both
top-level dicts keep references to the SAME `meta` dict object, so the
subsequent `_constraints_0_5_1["meta"].update(\x7btimestamp, doi, license\x7d)`
mutates the one shared `meta` dict.  After initialization, the `meta`
section of BOTH table entries is this dictionary. -/
def metaItems : Items :=
  metaItemsLiteral ++
  [("timestamp", .toStr, false),
   ("doi", .toStr, false),
   ("license", .toStr, false)]

/-- The value the name `_constraints_0_3` holds once module initialization
finishes: its `content` and `meta` dict objects are shared with
`_constraints_0_5_1`, and the shared `meta` dict has received the 0.5.1
update. -/
def constraints_0_3 : List (String × Items) :=
  [("content", contentItems), ("meta", metaItems)]

/-- The value the name `_constraints_0_5_1` holds: the shallow copy holds
references to the same section dicts as `_constraints_0_3`. -/
def constraints_0_5_1 : List (String × Items) := constraints_0_3

/-- The module-level `_constraints` table, keyed by version string in
insertion order. -/
def constraintsTable : List (String × List (String × Items)) :=
  [("0.3", constraints_0_3), ("0.5.1", constraints_0_5_1)]

/-- `MIN_SUPPORTED_VERSION = min([version.parse(k) for k in keys])`. -/
def minSupportedVersion : List Nat :=
  match (constraintsTable.map Prod.fst).filterMap parseVersion with
  | [] => []
  | v :: vs => vs.foldl (fun a b => if verLT b a then b else a) v

/-- `str(MIN_SUPPORTED_VERSION)`. -/
def minVersionString : String := versionToString minSupportedVersion

/-- The message of the version-too-old error, carrying the offending declared
version and the minimum required version. -/
def versionTooOldMsg (mv : String) : String :=
  "You tried to upload a dataset complying scidatacontainer model version " ++
  mv ++ " but the server requires a minimum model version of " ++ minVersionString

/-- The `BaseParser._constraints` property: parse the declared model version,
reject it below `MIN_SUPPORTED_VERSION` with a 400 `MetaDBError`, then select
the table entry under `key = max([k for k in _constraints.keys() if
version.parse(k) < v])` — note the source's STRICT comparison and the string
`max`; `max` of an empty list raises `ValueError`. -/
def resolveConstraints (mv : String) : Except PyErr (List (String × Items)) :=
  match parseVersion mv with
  | none => .error (.valueError ("Invalid version: '" ++ mv ++ "'"))
  | some v =>
    if verLT v minSupportedVersion then
      .error (.metaDB 400 (versionTooOldMsg mv))
    else
      match stringMax ((constraintsTable.map Prod.fst).filter (fun k =>
          match parseVersion k with
          | some kv => verLT kv v
          | none => false)) with
      | none => .error (.valueError "max() arg is an empty sequence")
      | some key =>
        match constraintsTable.lookup key with
        | some cs => .ok cs
        | none => .error (.keyError key)

/- ### The field validator (`BaseParser._parse_validate`) -/

/-- `re.sub(r'(?<!^)(?=[A-Z])', '_', key).lower()`: insert an underscore
before every ASCII capital except at the start, then lowercase. -/
def camelToSnake (s : String) : String :=
  match s.toList with
  | [] => ""
  | c :: cs =>
    String.mk (c.toLower :: cs.foldr (fun ch acc =>
      if 'A' ≤ ch && ch ≤ 'Z' then '_' :: ch.toLower :: acc
      else ch.toLower :: acc) [])

/-- `key in in_dict` on an association list. -/
def hasKey (d : List (String × JValue)) (k : String) : Bool :=
  d.any (fun p => p.1 == k)

/-- `in_dict[key]` (first binding, as in a Python dict). -/
def dlookup (d : List (String × JValue)) (k : String) : Option JValue :=
  (d.find? (fun p => p.1 == k)).map Prod.snd

/-- Lookup in a validated-output dictionary. -/
def dvlookup (d : List (String × DomValue)) (k : String) : Option DomValue :=
  (d.find? (fun p => p.1 == k)).map Prod.snd

/-- `del d[key]` on a validated-output dictionary. -/
def dictRemove (d : List (String × DomValue)) (k : String) : List (String × DomValue) :=
  d.filter (fun p => p.1 != k)

/-- The `MissingField` message of `_parse_validate`. -/
def missingFieldMsg (key file : String) : String :=
  "Attribute '" ++ key ++ "' required in " ++ file ++ ".json."

/-- The `InvalidFieldValue` message of `_parse_validate`.  The source builds
it by string concatenation with the raw value, so it is only well defined
when that value is a string (otherwise the concatenation itself raises
`TypeError`); the field name does not occur in the format. -/
def failedConvertMsg (rawValue : String) : String :=
  "Failed to convert '" ++ rawValue ++
  "' using the default parser. Make sure it has the right type."

/-- One iteration of the `_parse_validate` loop on the item
`(key, (t, required))`: raise the 400 `MetaDBError` when a required key is
absent; when the key is present with a truthy value, rename it to snake case
and apply the coercer, turning a `ValueError` from the coercer into the 400
conversion `MetaDBError` (whose message concatenation needs the raw value to
be a string) and letting any other exception propagate; a key that is absent
but optional, or present with a falsy value, contributes nothing. -/
def validateStep (db : DB) (file : String) :
    String × Coercer × Bool → List (String × JValue) →
    Except PyErr (DB × Option (String × DomValue))
  | (key, t, required), ind =>
    if required && !hasKey ind key then
      .error (.metaDB 400 (missingFieldMsg key file))
    else
      match dlookup ind key with
      | some v =>
        if truthy v then
          match applyCoercer t db v with
          | .ok (db', dv) => .ok (db', some (camelToSnake key, dv))
          | .error (.valueError _) =>
            match v with
            | .jstr s => .error (.metaDB 400 (failedConvertMsg s))
            | _ => .error (.typeError "can only concatenate str (not \"int\") to str")
          | .error e => .error e
        else .ok (db, none)
      | none => .ok (db, none)

/-- The validation loop of `_parse_validate`: run `validateStep` over the
items of the section in table order, threading the database and collecting
the renamed, coerced entries in order. -/
def validateItems (db : DB) (file : String) :
    Items → List (String × JValue) → Except PyErr (DB × List (String × DomValue))
  | [], _ => .ok (db, [])
  | item :: rest, ind =>
    match validateStep db file item ind with
    | .error e => .error e
    | .ok (db', none) => validateItems db' file rest ind
    | .ok (db', some kv) =>
      match validateItems db' file rest ind with
      | .ok (db'', out) => .ok (db'', kv :: out)
      | .error e => .error e

/-- `BaseParser._parse_validate`: fetch the constraint set through the
`_constraints` property (resolving the declared model version) and run the
validation loop on the named section. -/
def parse_validate (db : DB) (mv file : String) (ind : List (String × JValue)) :
    Except PyErr (DB × List (String × DomValue)) :=
  match resolveConstraints mv with
  | .error e => .error e
  | .ok cs =>
    match cs.lookup file with
    | some items => validateItems db file items ind
    | none => .error (.keyError file)

/- ### Format extraction (`ZipContainerParser`) -/

/-- One member of the uploaded ZIP archive: name, uncompressed size, and the
parsed JSON content when the member's bytes parse as JSON (`none` models a
member whose bytes are not valid JSON). -/
structure ZipMember where
  name : String
  size : Nat
  data : Option JValue
  deriving Repr

/-- The uploaded file object: sniffed MIME type of its leading bytes, its
archive members, and its byte size. -/
structure Upload where
  mime : String
  members : List ZipMember
  size : Nat
  deriving Repr

/-- `ZipContainerParser._read_content_json` /  `_read_meta_json`: open the
named member and `json.load` it.  A missing member raises `KeyError` from
`zipfile`, undecodable bytes raise `json.JSONDecodeError` (a `ValueError`). -/
def readJsonMember (u : Upload) (name : String) : Except PyErr JValue :=
  match u.members.find? (fun m => m.name == name) with
  | none => .error (.keyError ("There is no item named " ++ name ++ " in the archive"))
  | some m =>
    match m.data with
    | some v => .ok v
    | none => .error (.valueError "Expecting value: line 1 column 1 (char 0)")

/-- `s.endswith(suf)`, computed on the character list (equivalent to the
byte-level test for well-formed strings). -/
def strEndsWith (s suf : String) : Bool := suf.data.isSuffixOf s.data

/-- `s.startswith(pre)`, computed on the character list. -/
def strStartsWith (s pre : String) : Bool := pre.data.isPrefixOf s.data

/-- One iteration of the `_read_filelist` loop: a member whose name ends in
`.json` is `json.load`ed (raising `JSONDecodeError`, a `ValueError`, when its
bytes are not JSON) and registered with its content; any other member is
registered with name and size only. -/
def fileStep (m : ZipMember) (db : DB) : Except PyErr (DB × FileRef) :=
  if strEndsWith m.name ".json" then
    match m.data with
    | none => .error (.valueError "Expecting value: line 1 column 1 (char 0)")
    | some v => .ok (fileGetOrCreate db m.name m.size (some v))
  else .ok (fileGetOrCreate db m.name m.size none)

/-- The member walk of `ZipContainerParser._read_filelist`: run `fileStep`
over every archive member in order, collecting the `File` objects. -/
def readFilelistGo : List ZipMember → DB → Except PyErr (DB × List FileRef)
  | [], db => .ok (db, [])
  | m :: ms, db =>
    match fileStep m db with
    | .error e => .error e
    | .ok (db₁, f) =>
      match readFilelistGo ms db₁ with
      | .ok (db'', fs) => .ok (db'', f :: fs)
      | .error e => .error e

/-- `ZipContainerParser._read_filelist`: walk every archive member in
order. -/
def readFilelist (db : DB) (u : Upload) : Except PyErr (DB × List FileRef) :=
  readFilelistGo u.members db

/-- `_read_model_version`: `self.content["modelVersion"]`.  A non-dict
content or a non-string version surfaces as the exception the subsequent use
raises; a missing key raises `KeyError`. -/
def getModelVersion (content : JValue) : Except PyErr String :=
  match content with
  | .jdict d =>
    match dlookup d "modelVersion" with
    | some (.jstr s) => .ok s
    | some _ => .error (.typeError "expected str or bytes-like object")
    | none => .error (.keyError "modelVersion")
  | _ => .error (.typeError "argument of type is not a dict")

/- ### `BaseParser.parse` -/

/-- The reserved all-zero test prefix of `parse`. -/
def testUuidPrefix : String := "00000000-0000-0000-0000-00000000"

/-- Modelled from the spec: `parse_test_data` lives in `test_utils`, which is
not among the given sources.  The spec fixes its contract on this path:
reserved test identifiers route to a separate test-fixture resolver that
returns the no-record signal (the orchestrator's comment reads `obj == None
for test uploads`) and persists nothing. -/
def parse_test_data (_uuid : String) : Option String := none

/-- The reading-and-validation phase of `BaseParser.parse` for the ZIP
parser, lines 252–258 of the source: read `content.json`, `meta.json` and
the file manifest (the manifest registers `File` rows), seed the output
dictionary with the upload size and the manifest, then validate the
`content` and the `meta` section and merge their outputs. -/
def zipValidatePhase (db : DB) (u : Upload) :
    Except PyErr (DB × List (String × DomValue)) :=
  match readJsonMember u "content.json" with
  | .error e => .error e
  | .ok content =>
    match readJsonMember u "meta.json" with
    | .error e => .error e
    | .ok meta =>
      match readFilelist db u with
      | .error e => .error e
      | .ok (db₁, files) =>
        let d0 : List (String × DomValue) :=
          [("size", .nat u.size), ("content", .files files)]
        match getModelVersion content with
        | .error e => .error e
        | .ok mv =>
          match content with
          | .jdict cdict =>
            match meta with
            | .jdict mdict =>
              match parse_validate db₁ mv "content" cdict with
              | .error e => .error e
              | .ok (db₂, dc) =>
                match parse_validate db₂ mv "meta" mdict with
                | .error e => .error e
                | .ok (db₃, dm) => .ok (db₃, dictUpdate (dictUpdate d0 dc) dm)
            | _ => .error (.typeError "argument of type is not a dict")
          | _ => .error (.typeError "argument of type is not a dict")

/-- The identity branch of `BaseParser.parse`, lines 260–281 of the source:
take the validated uuid; route identifiers with the reserved test prefix to
`parse_test_data`; otherwise delete the uuid key and reconcile — an existing
full record is updated in place, an existing placeholder is deleted and
replaced by a new full record, and an unseen identifier gets a new full
record owned by the caller. -/
def identityBranch (db : DB) (d : List (String × DomValue)) (user : String) :
    Except PyErr (DB × Option String) :=
  match dvlookup d "uuid" with
  | some (.str uuid) =>
    if strStartsWith uuid testUuidPrefix then
      .ok (db, parse_test_data uuid)
    else
      let d' := dictRemove d "uuid"
      if countId db uuid ≠ 0 then
        if countFullRows db uuid ≠ 0 then
          .ok (updateAttributes db uuid d', some uuid)
        else
          .ok (newFullRecord (baseDelete db uuid) uuid user d', some uuid)
      else
        .ok (newFullRecord db uuid user d', some uuid)
  | some _ => .error (.attributeError "object has no attribute startswith")
  | none => .error (.keyError "uuid")

/-- `ZipContainerParser`'s `parse`: the validation phase followed by the
identity branch. -/
def zipParse (db : DB) (u : Upload) (user : String) :
    Except PyErr (DB × Option String) :=
  match zipValidatePhase db u with
  | .error e => .error e
  | .ok (db', d) => identityBranch db' d user

/- ### The ingestion orchestrator (`parse_container_file`) -/

/-- `settings.MEDIA_ROOT`, an external configuration value. -/
def mediaRoot : String := "/srv/media"

/-- The list of storage paths written under `MEDIA_ROOT`; the raw-bytes file
write appends to it.  File-system writes are not database mutations and are
not undone by the transaction. -/
abbrev Storage := List String

/-- `obj.server_path = server_path; obj.save()` on the full row with the
given id. -/
def setServerPath (db : DB) (id path : String) : DB :=
  { db with datasets := db.datasets.map (fun r =>
      match r with
      | DSRow.full i o c a _ => if i == id then DSRow.full i o c a (some path) else r
      | r => r) }

/-- The error payload surfaced to the caller, `\x7berror_code, msg\x7d`. -/
structure ErrPayload where
  error_code : Nat
  msg : String
  deriving Repr, DecidableEq

/-- The body of the `transaction.atomic()` block of `parse_container_file`:
dispatch on the sniffed MIME type; for ZIP run the parser and — unless the
test path returned no record — write the raw bytes under
`MEDIA_ROOT/<id>.zdc` and save the path on the record; for the alternate
(hdf5) MIME type the source instantiates `Hdf5ContainerParser()`, which
Python's ABC machinery rejects with `TypeError` because the class leaves the
abstract `_read_filelist` unimplemented (so its 501-raising section readers
are never reached); any other type raises the 415 `MetaDBError`. -/
def pipelineBody (db : DB) (st : Storage) (u : Upload) (owner : String) :
    Except PyErr (DB × Storage × Option String) :=
  if u.mime == "application/zip" then
    match zipParse db u owner with
    | .error e => .error e
    | .ok (db', obj) =>
      match obj with
      | none => .ok (db', st, none)
      | some id =>
        let path := mediaRoot ++ "/" ++ id ++ ".zdc"
        .ok (setServerPath db' id path, st ++ [path], some id)
  else if u.mime == "application/x-hdf" then
    .error (.typeError
      "Can't instantiate abstract class Hdf5ContainerParser with abstract method _read_filelist")
  else
    .error (.metaDB 415 "File format has to be hdf5 or zip!")

/-- The except-clauses of `parse_container_file`: a `MetaDBError` is
re-raised unchanged; `IntegrityError` and `ValidationError` are wrapped as
400 payloads; any other exception becomes the generic 500 payload. -/
def translateErr : PyErr → ErrPayload
  | .metaDB c m => ⟨c, m⟩
  | .integrityError m => ⟨400, "IntegrityError: " ++ pyErrStr (.integrityError m)⟩
  | .validationError m => ⟨400, "ValidationError: " ++ pyErrStr (.validationError m)⟩
  | e => ⟨500, "Unknown error! Please report to your administrator providing these information:\n\n"
               ++ pyErrStr e⟩

/-- `parse_container_file`: run the body inside `transaction.atomic()`.  On
success the transaction commits; on any exception Django rolls every
database mutation of this ingestion back (the storage list is not a database
table; in the source every failing path raises before the raw-bytes write),
and the except-clauses translate the exception. -/
def parse_container_file (db : DB) (st : Storage) (u : Upload) (owner : String) :
    DB × Storage × Except ErrPayload (Option String) :=
  match pipelineBody db st u owner with
  | .ok (db', st', obj) => (db', st', .ok obj)
  | .error e => (db, st, .error (translateErr e))

/- ### Lemmas about the validation loop -/

/-- A key with a binding is contained in the dictionary. -/
theorem dlookup_some_hasKey {d : List (String × JValue)} {k : String} {v : JValue}
    (h : dlookup d k = some v) : hasKey d k = true := by
  unfold dlookup at h
  unfold hasKey
  cases hf : d.find? (fun p => p.1 == k) with
  | none => rw [hf] at h; simp at h
  | some p =>
    have := List.find?_some hf
    have hm := List.mem_of_find?_eq_some hf
    exact List.any_eq_true.mpr ⟨p, hm, this⟩

/-- The validation loop splits over list append: run the first block, thread
its database into the second, concatenate the outputs; an error in the first
block short-circuits. -/
theorem validateItems_append (file : String) (ind : List (String × JValue)) :
    ∀ (xs ys : Items) (db : DB),
    validateItems db file (xs ++ ys) ind =
      match validateItems db file xs ind with
      | .ok (db₁, o₁) =>
        match validateItems db₁ file ys ind with
        | .ok (db₂, o₂) => .ok (db₂, o₁ ++ o₂)
        | .error e => .error e
      | .error e => .error e
  | [], ys, db => by
    simp only [List.nil_append, validateItems]
    cases h : validateItems db file ys ind with
    | ok p => cases p with | mk a b => simp
    | error e => simp
  | x :: xs, ys, db => by
    simp only [List.cons_append, validateItems, List.append_eq]
    cases hs : validateStep db file x ind with
    | error e => simp
    | ok p =>
      cases p with
      | mk db' kv =>
        cases kv with
        | none =>
          simpa only [List.append_eq] using validateItems_append file ind xs ys db'
        | some kv =>
          simp only
          rw [validateItems_append file ind xs ys db']
          cases h1 : validateItems db' file xs ind with
          | error e => simp
          | ok q =>
            cases q with
            | mk db₁ o₁ =>
              simp only
              cases h2 : validateItems db₁ file ys ind with
              | error e => simp
              | ok r => cases r with | mk db₂ o₂ => simp

/-- A present key is never reported missing; with a falsy value the step
contributes nothing: no error, no coercion, no output entry. -/
theorem validateStep_falsy (db : DB) (file key : String) (t : Coercer) (req : Bool)
    (ind : List (String × JValue)) (v : JValue)
    (hv : dlookup ind key = some v) (ht : truthy v = false) :
    validateStep db file (key, t, req) ind = .ok (db, none) := by
  have hk := dlookup_some_hasKey hv
  simp [validateStep, hk, hv, ht]

/-- A required, absent key makes the step fail with the 400 missing-field
error naming the key and the section file. -/
theorem validateStep_missing (db : DB) (file key : String) (t : Coercer)
    (ind : List (String × JValue)) (habs : hasKey ind key = false) :
    validateStep db file (key, t, true) ind =
      .error (.metaDB 400 (missingFieldMsg key file)) := by
  simp [validateStep, habs]

/-- A step that produces an output entry names it with the snake-case rename
of its item's key. -/
theorem validateStep_ok_some_key (db db' : DB) (file : String)
    (x : String × Coercer × Bool) (ind : List (String × JValue))
    (kv : String × DomValue)
    (hs : validateStep db file x ind = .ok (db', some kv)) :
    kv.1 = camelToSnake x.1 := by
  obtain ⟨key, t, req⟩ := x
  simp only [validateStep] at hs
  split at hs
  · cases hs
  · split at hs
    · split at hs
      · split at hs
        · cases hs; rfl
        · split at hs <;> cases hs
        · cases hs
      · cases hs
    · cases hs

/-- Every key of the validation output is the snake-case rename of a key of
the processed items. -/
theorem validateItems_out_keys (file : String) (ind : List (String × JValue)) :
    ∀ (xs : Items) (db db' : DB) (out : List (String × DomValue)),
    validateItems db file xs ind = .ok (db', out) →
    ∀ p ∈ out, ∃ q ∈ xs, p.1 = camelToSnake q.1
  | [], db, db', out, h => by
    simp only [validateItems] at h
    cases h
    intro p hp
    simp at hp
  | x :: xs, db, db', out, h => by
    simp only [validateItems] at h
    cases hs : validateStep db file x ind with
    | error e => rw [hs] at h; cases h
    | ok p =>
      cases p with
      | mk db₁ kv =>
        rw [hs] at h
        cases kv with
        | none =>
          intro p hp
          obtain ⟨q, hq, he⟩ := validateItems_out_keys file ind xs db₁ db' out h p hp
          exact ⟨q, List.mem_cons_of_mem _ hq, he⟩
        | some kv =>
          simp only at h
          cases h1 : validateItems db₁ file xs ind with
          | error e => rw [h1] at h; cases h
          | ok r =>
            cases r with
            | mk db₂ o₂ =>
              rw [h1] at h
              injection h with h2
              injection h2 with hdb hout
              subst hdb
              subst hout
              intro p hp
              cases hp with
              | head =>
                exact ⟨x, List.mem_cons_self _ _,
                  validateStep_ok_some_key db db₁ file x ind kv hs⟩
              | tail _ hp =>
                obtain ⟨q, hq, he⟩ := validateItems_out_keys file ind xs db₁ db₂ o₂ h1 p hp
                exact ⟨q, List.mem_cons_of_mem _ hq, he⟩

/- ### Lemmas about dataset rows and well-formedness -/

/-- Two databases with the same dataset table are equally well-formed. -/
theorem wf_of_datasets_eq {db db' : DB} (h : db'.datasets = db.datasets)
    (hwf : wfDB db) : wfDB db' := by
  unfold wfDB dbIds at *
  rw [h]
  exact hwf

/-- Keyword creation does not touch the dataset table. -/
theorem keywordGetOrCreate_datasets (db : DB) (n : String) :
    (keywordGetOrCreate db n).datasets = db.datasets := by
  unfold keywordGetOrCreate
  split <;> rfl

/-- Folding keyword creation does not touch the dataset table. -/
theorem keywordFold_datasets (ks : List String) (db : DB) :
    (ks.foldl keywordGetOrCreate db).datasets = db.datasets := by
  induction ks generalizing db with
  | nil => rfl
  | cons k ks ih =>
    rw [List.foldl_cons, ih, keywordGetOrCreate_datasets]

/-- Container-type creation does not touch the dataset table. -/
theorem containerTypeGetOrCreate_datasets (db : DB) (v : JValue) :
    (containerTypeGetOrCreate db v).datasets = db.datasets := by
  unfold containerTypeGetOrCreate
  split <;> rfl

/-- File registration does not touch the dataset table. -/
theorem fileGetOrCreate_datasets (db : DB) (n : String) (s : Nat) (c : Option JValue) :
    (fileGetOrCreate db n s c).1.datasets = db.datasets := by
  unfold fileGetOrCreate
  split <;> rfl

/-- Placeholder creation preserves uniqueness of identifiers. -/
theorem baseGetOrCreate_wf (db : DB) (id : String) (hwf : wfDB db) :
    wfDB (baseGetOrCreate db id) := by
  unfold baseGetOrCreate
  split
  · exact hwf
  next hany =>
    unfold wfDB dbIds at *
    simp only [List.map_append, List.map_cons, List.map_nil, rowId]
    rw [List.nodup_append]
    refine ⟨hwf, List.nodup_singleton _, ?_⟩
    intro a ha hb
    simp only [List.mem_singleton] at hb
    subst hb
    apply hany
    rw [List.any_eq_true]
    obtain ⟨r, hr, hre⟩ := List.mem_map.mp ha
    exact ⟨r, hr, by simp [hre]⟩

/-- A filter length is preserved under mapping with a function the predicate
cannot distinguish. -/
theorem filter_length_map (g : DSRow → DSRow) (p : DSRow → Bool)
    (hg : ∀ r, p (g r) = p r) :
    ∀ l : List DSRow, ((l.map g).filter p).length = (l.filter p).length
  | [] => rfl
  | r :: l => by
    simp only [List.map_cons, List.filter_cons, hg r]
    split <;> simp [filter_length_map g p hg l]

/-- Row identifiers are preserved under mapping with an id-preserving
function. -/
theorem map_rowId_of_pointwise (g : DSRow → DSRow)
    (hg : ∀ r, rowId (g r) = rowId r) :
    ∀ l : List DSRow, (l.map g).map rowId = l.map rowId
  | [] => rfl
  | r :: l => by simp [hg r, map_rowId_of_pointwise g hg l]

/-- The in-place attribute update leaves every row count with a given id
unchanged. -/
theorem countId_updateAttributes (db : DB) (id uid : String)
    (d : List (String × DomValue)) :
    countId (updateAttributes db id d) uid = countId db uid := by
  exact filter_length_map _ _ (by
    intro r
    cases r with
    | placeholder i => rfl
    | full i o c a p => simp only; split <;> rfl) db.datasets

/-- The in-place attribute update leaves every full-row count unchanged. -/
theorem countFullRows_updateAttributes (db : DB) (id uid : String)
    (d : List (String × DomValue)) :
    countFullRows (updateAttributes db id d) uid = countFullRows db uid := by
  exact filter_length_map _ _ (by
    intro r
    cases r with
    | placeholder i => rfl
    | full i o c a p => simp only; split <;> rfl) db.datasets

/-- The in-place attribute update preserves the identifier list. -/
theorem dbIds_updateAttributes (db : DB) (id : String)
    (d : List (String × DomValue)) :
    dbIds (updateAttributes db id d) = dbIds db := by
  exact map_rowId_of_pointwise _ (by
    intro r
    cases r with
    | placeholder i => rfl
    | full i o c a p => simp only; split <;> rfl) db.datasets

/-- There are at most as many full rows as rows with a given id. -/
theorem countFull_le_countId : ∀ (l : List DSRow) (id : String),
    (l.filter (fun r => rowId r == id && isFull r)).length ≤
      (l.filter (fun r => rowId r == id)).length
  | [], _ => Nat.le_refl _
  | r :: l, id => by
    simp only [List.filter_cons]
    by_cases h1 : (rowId r == id) = true
    · by_cases h2 : isFull r = true
      · simp only [h1, h2, Bool.and_self, if_pos]
        simpa using Nat.succ_le_succ (countFull_le_countId l id)
      · simp only [h1, h2, Bool.and_false]
        simpa using Nat.le_succ_of_le (countFull_le_countId l id)
    · simp only [h1, Bool.false_and]
      simpa using countFull_le_countId l id

/-- With unique identifiers there is at most one row per id. -/
theorem countId_le_one_of_nodup : ∀ (l : List DSRow),
    (l.map rowId).Nodup → ∀ id : String,
    (l.filter (fun r => rowId r == id)).length ≤ 1
  | [], _, id => by simp
  | r :: l, h, id => by
    simp only [List.map_cons, List.nodup_cons] at h
    obtain ⟨hr, hl⟩ := h
    simp only [List.filter_cons]
    by_cases he : (rowId r == id) = true
    · simp only [he, if_pos]
      have hzero : (l.filter (fun r' => rowId r' == id)).length = 0 := by
        rw [List.length_eq_zero, List.filter_eq_nil_iff]
        intro a ha hpa
        apply hr
        rw [beq_iff_eq] at he hpa
        rw [← he] at hpa
        exact hpa ▸ List.mem_map_of_mem rowId ha
      simp [hzero]
    · simp only [he, if_neg]
      simpa using countId_le_one_of_nodup l hl id

/-- In a well-formed database a represented identifier has exactly one
row. -/
theorem countId_eq_one (db : DB) (id : String) (hwf : wfDB db)
    (h : countId db id ≠ 0) : countId db id = 1 := by
  have hle := countId_le_one_of_nodup db.datasets hwf id
  unfold countId at *
  omega

/-- Deleting the base row with an id leaves no row with that id. -/
theorem countId_baseDelete (db : DB) (id : String) :
    countId (baseDelete db id) id = 0 := by
  unfold countId baseDelete
  simp only
  rw [List.length_eq_zero, List.filter_eq_nil_iff]
  intro a ha hpa
  have hne := List.of_mem_filter ha
  simp only [bne_iff_ne, ne_eq] at hne
  exact hne (by rwa [beq_iff_eq] at hpa)

/-- The deleted identifier is gone from the identifier list. -/
theorem notMem_baseDelete_ids (db : DB) (id : String) :
    id ∉ dbIds (baseDelete db id) := by
  intro hmem
  obtain ⟨r, hr, hre⟩ := List.mem_map.mp hmem
  have hne := List.of_mem_filter hr
  simp only [bne_iff_ne, ne_eq] at hne
  exact hne hre

/-- Deletion preserves uniqueness of identifiers. -/
theorem wf_baseDelete (db : DB) (id : String) (hwf : wfDB db) :
    wfDB (baseDelete db id) := by
  unfold wfDB dbIds baseDelete at *
  simp only
  exact ((List.filter_sublist _).map rowId).nodup hwf

/-- Creating a full record appends exactly one row with its id. -/
theorem countId_newFullRecord (db : DB) (id user : String)
    (d : List (String × DomValue)) :
    countId (newFullRecord db id user d) id = countId db id + 1 := by
  unfold countId newFullRecord
  simp [List.filter_append, rowId]

/-- Creating a full record appends exactly one full row with its id. -/
theorem countFullRows_newFullRecord (db : DB) (id user : String)
    (d : List (String × DomValue)) :
    countFullRows (newFullRecord db id user d) id = countFullRows db id + 1 := by
  unfold countFullRows newFullRecord
  simp [List.filter_append, rowId, isFull]

/-- An id with no rows is absent from the identifier list. -/
theorem notMem_of_countId_zero (db : DB) (id : String)
    (h : countId db id = 0) : id ∉ dbIds db := by
  intro hmem
  obtain ⟨r, hr, hre⟩ := List.mem_map.mp hmem
  unfold countId at h
  rw [List.length_eq_zero, List.filter_eq_nil_iff] at h
  exact h r hr (by simp [hre])

/-- An id with zero full rows has none in the filtered table either. -/
theorem countFullRows_eq_zero_elim (db : DB) (id : String)
    (h : countId db id = 0) : countFullRows db id = 0 := by
  have := countFull_le_countId db.datasets id
  unfold countId at h
  unfold countFullRows
  omega

/-- Appending a full record with a fresh id preserves uniqueness. -/
theorem wf_newFullRecord (db : DB) (id user : String)
    (d : List (String × DomValue)) (hwf : wfDB db) (hnot : id ∉ dbIds db) :
    wfDB (newFullRecord db id user d) := by
  unfold wfDB dbIds newFullRecord at *
  simp only [List.map_append, List.map_cons, List.map_nil, rowId]
  rw [List.nodup_append]
  refine ⟨hwf, List.nodup_singleton _, ?_⟩
  intro a ha hb
  simp only [List.mem_singleton] at hb
  subst hb
  exact hnot ha

/- ### Well-formedness through the pipeline -/

/-- A successful coercion preserves uniqueness of dataset identifiers. -/
theorem applyCoercer_wf (c : Coercer) (db : DB) (v : JValue) (db' : DB)
    (dv : DomValue) (h : applyCoercer c db v = .ok (db', dv)) (hwf : wfDB db) :
    wfDB db' := by
  cases c with
  | toStr => simp only [applyCoercer] at h; cases h; exact hwf
  | toBool => simp only [applyCoercer] at h; cases h; exact hwf
  | toDatetime =>
    cases v <;> simp only [applyCoercer] at h <;> try cases h
    rename_i s
    cases hd : datetimeParse s with
    | some dt => rw [hd] at h; cases h; exact hwf
    | none => rw [hd] at h; cases h
  | toReplaces =>
    cases v <;> simp only [applyCoercer] at h <;> try cases h
    rename_i id
    cases hf : findFull db id with
    | some r => rw [hf] at h; cases h; exact hwf
    | none => rw [hf] at h; cases h; exact baseGetOrCreate_wf db id hwf
  | toContainerType =>
    simp only [applyCoercer] at h
    cases h
    exact wf_of_datasets_eq (containerTypeGetOrCreate_datasets db v) hwf
  | toUsedSoftware =>
    cases v <;> simp only [applyCoercer] at h <;> cases h
    exact hwf
  | toKeywords =>
    cases v <;> simp only [applyCoercer] at h <;> try cases h
    rename_i xs
    split at h
    · cases h
      exact wf_of_datasets_eq (keywordFold_datasets _ db) hwf
    · cases h

/-- A successful validation step preserves uniqueness. -/
theorem validateStep_wf (db : DB) (file : String) (x : String × Coercer × Bool)
    (ind : List (String × JValue)) (db' : DB) (kv : Option (String × DomValue))
    (h : validateStep db file x ind = .ok (db', kv)) (hwf : wfDB db) :
    wfDB db' := by
  obtain ⟨key, t, req⟩ := x
  simp only [validateStep] at h
  split at h
  · cases h
  · cases hl : dlookup ind key with
    | none => rw [hl] at h; cases h; exact hwf
    | some v =>
      rw [hl] at h
      simp only at h
      by_cases htr : truthy v = true
      · rw [if_pos htr] at h
        cases hc : applyCoercer t db v with
        | error e =>
          rw [hc] at h
          cases e <;> simp only at h <;> try cases h
          cases v <;> simp only at h <;> cases h
        | ok pr =>
          obtain ⟨db₂, dv⟩ := pr
          rw [hc] at h
          injection h with h2
          injection h2 with hdb hkv
          subst hdb
          exact applyCoercer_wf t db v _ dv hc hwf
      · rw [if_neg htr] at h
        cases h
        exact hwf

/-- A successful validation loop preserves uniqueness. -/
theorem validateItems_wf (file : String) (ind : List (String × JValue)) :
    ∀ (xs : Items) (db db' : DB) (out : List (String × DomValue)),
    validateItems db file xs ind = .ok (db', out) → wfDB db → wfDB db'
  | [], db, db', out, h, hwf => by
    simp only [validateItems] at h; cases h; exact hwf
  | x :: xs, db, db', out, h, hwf => by
    simp only [validateItems] at h
    cases hs : validateStep db file x ind with
    | error e => rw [hs] at h; cases h
    | ok p =>
      obtain ⟨db₁, kv⟩ := p
      rw [hs] at h
      have hwf₁ := validateStep_wf db file x ind db₁ kv hs hwf
      cases kv with
      | none => exact validateItems_wf file ind xs db₁ db' out h hwf₁
      | some kv =>
        simp only at h
        cases h1 : validateItems db₁ file xs ind with
        | error e => rw [h1] at h; cases h
        | ok r =>
          obtain ⟨db₂, o₂⟩ := r
          rw [h1] at h
          injection h with h2
          injection h2 with hdb hout
          subst hdb
          exact validateItems_wf file ind xs db₁ db₂ o₂ h1 hwf₁

/-- A successful section validation preserves uniqueness. -/
theorem parse_validate_wf (db : DB) (mv file : String)
    (ind : List (String × JValue)) (db' : DB) (out : List (String × DomValue))
    (h : parse_validate db mv file ind = .ok (db', out)) (hwf : wfDB db) :
    wfDB db' := by
  unfold parse_validate at h
  split at h
  · cases h
  · split at h
    · exact validateItems_wf file ind _ db db' out h hwf
    · cases h

/-- One file-registration step leaves the dataset table unchanged. -/
theorem fileStep_datasets (m : ZipMember) (db db₁ : DB) (f : FileRef)
    (h : fileStep m db = .ok (db₁, f)) : db₁.datasets = db.datasets := by
  unfold fileStep at h
  split at h
  · cases hd : m.data with
    | none => rw [hd] at h; cases h
    | some v =>
      rw [hd] at h
      injection h with h2
      have h1 := congrArg Prod.fst h2
      simp only at h1
      rw [← h1]
      exact fileGetOrCreate_datasets db m.name m.size (some v)
  · injection h with h2
    have h1 := congrArg Prod.fst h2
    simp only at h1
    rw [← h1]
    exact fileGetOrCreate_datasets db m.name m.size none

/-- The manifest walk leaves the dataset table unchanged. -/
theorem readFilelistGo_datasets (ms : List ZipMember) : ∀ (db db' : DB)
    (fs : List FileRef), readFilelistGo ms db = .ok (db', fs) →
    db'.datasets = db.datasets := by
  induction ms with
  | nil =>
    intro db db' fs h
    simp only [readFilelistGo] at h
    cases h
    rfl
  | cons m ms ih =>
    intro db db' fs h
    simp only [readFilelistGo] at h
    cases hs : fileStep m db with
    | error e => rw [hs] at h; cases h
    | ok p =>
      obtain ⟨db₁, f⟩ := p
      rw [hs] at h
      simp only at h
      cases hg : readFilelistGo ms db₁ with
      | error e => rw [hg] at h; cases h
      | ok r =>
        obtain ⟨db₂, fs₂⟩ := r
        rw [hg] at h
        injection h with h2
        injection h2 with hdb hfs
        subst hdb
        rw [ih db₁ db₂ fs₂ hg, fileStep_datasets m db db₁ f hs]

/-- The whole extraction-and-validation phase preserves uniqueness. -/
theorem zipValidatePhase_wf (db : DB) (u : Upload) (dbv : DB)
    (d : List (String × DomValue)) (h : zipValidatePhase db u = .ok (dbv, d))
    (hwf : wfDB db) : wfDB dbv := by
  unfold zipValidatePhase at h
  cases hco : readJsonMember u "content.json" with
  | error e => rw [hco] at h; cases h
  | ok content =>
    rw [hco] at h
    cases hme : readJsonMember u "meta.json" with
    | error e => rw [hme] at h; cases h
    | ok meta =>
      rw [hme] at h
      cases hfl : readFilelist db u with
      | error e => rw [hfl] at h; cases h
      | ok p =>
        obtain ⟨db₁, files⟩ := p
        rw [hfl] at h
        simp only at h
        have hwf₁ : wfDB db₁ :=
          wf_of_datasets_eq (readFilelistGo_datasets u.members db db₁ files hfl) hwf
        cases hmv : getModelVersion content with
        | error e => rw [hmv] at h; cases h
        | ok mv =>
          rw [hmv] at h
          simp only at h
          cases content with
          | jdict cdict =>
            cases meta with
            | jdict mdict =>
              simp only at h
              cases hcv : parse_validate db₁ mv "content" cdict with
              | error e => rw [hcv] at h; cases h
              | ok p2 =>
                obtain ⟨db₂, dc⟩ := p2
                rw [hcv] at h
                simp only at h
                have hwf₂ := parse_validate_wf db₁ mv "content" cdict db₂ dc hcv hwf₁
                cases hmv2 : parse_validate db₂ mv "meta" mdict with
                | error e => rw [hmv2] at h; cases h
                | ok p3 =>
                  obtain ⟨db₃, dm⟩ := p3
                  rw [hmv2] at h
                  injection h with h2
                  injection h2 with hdb hd
                  subst hdb
                  exact parse_validate_wf db₂ mv "meta" mdict _ dm hmv2 hwf₂
            | jnull => cases h
            | jbool b => cases h
            | jnum n => cases h
            | jstr s => cases h
            | jlist l => cases h
          | jnull => cases h
          | jbool b => cases h
          | jnum n => cases h
          | jstr s => cases h
          | jlist l => cases h

/-- The identity branch of `parse`, on a well-formed database: whenever it
returns a record, the returned identifier has exactly one row, that row is a
full record, and identifiers stay unique. -/
theorem identityBranch_count (db : DB) (d : List (String × DomValue))
    (user : String) (db' : DB) (uuid : String) (hwf : wfDB db)
    (h : identityBranch db d user = .ok (db', some uuid)) :
    countId db' uuid = 1 ∧ countFullRows db' uuid = 1 ∧ wfDB db' := by
  unfold identityBranch at h
  cases hl : dvlookup d "uuid" with
  | none => rw [hl] at h; cases h
  | some dv =>
    rw [hl] at h
    cases dv with
    | str u =>
      simp only at h
      by_cases hp : strStartsWith u testUuidPrefix = true
      · rw [if_pos hp] at h
        simp [parse_test_data] at h
      · rw [if_neg hp] at h
        by_cases hc : countId db u ≠ 0
        · rw [if_pos hc] at h
          by_cases hf : countFullRows db u ≠ 0
          · rw [if_pos hf] at h
            injection h with h2
            injection h2 with hdb hu
            injection hu with hu
            subst hdb
            subst hu
            have h1 : countId db u = 1 := countId_eq_one db u hwf hc
            have h2' : countFullRows db u = 1 := by
              have hle := countFull_le_countId db.datasets u
              unfold countFullRows countId at *
              omega
            refine ⟨?_, ?_, ?_⟩
            · rw [countId_updateAttributes]; exact h1
            · rw [countFullRows_updateAttributes]; exact h2'
            · unfold wfDB
              rw [dbIds_updateAttributes]
              exact hwf
          · rw [if_neg hf] at h
            injection h with h2
            injection h2 with hdb hu
            injection hu with hu
            subst hdb
            subst hu
            refine ⟨?_, ?_, ?_⟩
            · rw [countId_newFullRecord, countId_baseDelete]
            · rw [countFullRows_newFullRecord,
                 countFullRows_eq_zero_elim _ _ (countId_baseDelete db u)]
            · exact wf_newFullRecord _ u user _ (wf_baseDelete db u hwf)
                (notMem_baseDelete_ids db u)
        · rw [if_neg hc] at h
          injection h with h2
          injection h2 with hdb hu
          injection hu with hu
          subst hdb
          subst hu
          have hz : countId db u = 0 := by omega
          refine ⟨?_, ?_, ?_⟩
          · rw [countId_newFullRecord, hz]
          · rw [countFullRows_newFullRecord, countFullRows_eq_zero_elim _ _ hz]
          · exact wf_newFullRecord db u user _ hwf (notMem_of_countId_zero db u hz)
    | bool b => cases h
    | datetime dt => cases h
    | dataset i => cases h
    | containerType v => cases h
    | softwareList xs => cases h
    | keywordList ks => cases h
    | files fs => cases h
    | nat n => cases h

/- ### Concrete inputs used by the witnesses -/

/-- A fully valid `content.json` dictionary declaring model version 1.0. -/
def exampleContentDict : List (String × JValue) :=
  [("uuid", .jstr "11111111-1111-1111-1111-111111111111"),
   ("containerType", .jdict [("name", .jstr "measurement")]),
   ("created", .jstr "2024-01-01T00:00:00"),
   ("modified", .jstr "2024-01-02T10:30:00"),
   ("static", .jbool true),
   ("complete", .jbool true),
   ("modelVersion", .jstr "1.0")]

/-- A fully valid `meta.json` dictionary. -/
def exampleMetaDict : List (String × JValue) :=
  [("author", .jstr "A. Author"), ("email", .jstr "a@example.org"),
   ("title", .jstr "An example dataset")]

/-- A valid ZIP upload carrying the two descriptor members. -/
def exampleUpload : Upload :=
  { mime := "application/zip"
    members := [⟨"content.json", 100, some (.jdict exampleContentDict)⟩,
                ⟨"meta.json", 50, some (.jdict exampleMetaDict)⟩]
    size := 321 }

/-- The identifier declared by `exampleUpload`. -/
def exampleUuid : String := "11111111-1111-1111-1111-111111111111"

/-- The database produced by ingesting `exampleUpload` into an empty
database. -/
def claim2ResultDb : DB :=
  match zipParse emptyDB exampleUpload "alice" with
  | .ok (d, _) => d
  | .error _ => emptyDB

/-- An upload whose sniffed MIME type is the alternate (hdf5) format. -/
def hdf5Upload : Upload := { mime := "application/x-hdf", members := [], size := 17 }

/-- An upload of an unrecognized MIME type. -/
def plainUpload : Upload := { mime := "text/plain", members := [], size := 3 }

/- ### The claims -/

/-- Claim C1, settled against the code at the failing input: the claim says
every declared version at or above the minimum (in particular exactly "0.3",
the minimum itself) resolves to the constraint set of the maximum table
version ≤ the declared version.  The source instead selects
`max([k for k in _constraints.keys() if version.parse(k) < v])` with a
STRICT comparison, so for the declared version "0.3" — which parses fine and
is not below the minimum — the filtered list is empty and `max` raises
`ValueError`, surfacing as a 500 through the orchestrator's generic handler
instead of resolving. -/
theorem claim1_min_version_resolution_raises :
    resolveConstraints "0.3" =
      .error (.valueError "max() arg is an empty sequence") ∧
    parseVersion "0.3" = some [0, 3] ∧
    verLT [0, 3] minSupportedVersion = false := by
  refine ⟨rfl, by decide, by decide⟩

/-- Claim C2: on a well-formed database (unique identifiers, as the primary
key guarantees), any successful ingestion of a container leaves the returned
identifier with exactly one dataset row, that row a full record — so an
identifier is never represented by both a placeholder and a full record, a
placeholder is deleted and replaced on full-record arrival, and a re-upload
updates in place instead of duplicating — and identifiers stay unique. -/
theorem claim2_unique_record_after_parse (db : DB) (u : Upload) (user : String)
    (db' : DB) (uuid : String) (hwf : wfDB db)
    (h : zipParse db u user = .ok (db', some uuid)) :
    countId db' uuid = 1 ∧ countFullRows db' uuid = 1 ∧ wfDB db' := by
  unfold zipParse at h
  cases hv : zipValidatePhase db u with
  | error e => rw [hv] at h; cases h
  | ok p =>
    obtain ⟨dbv, d⟩ := p
    rw [hv] at h
    exact identityBranch_count dbv d user db' uuid
      (zipValidatePhase_wf db u dbv d hv hwf) h

/-- Witness for claim C2 at a concrete upload. -/
theorem claim2_unique_record_after_parse_witness :
    countId claim2ResultDb exampleUuid = 1 ∧
    countFullRows claim2ResultDb exampleUuid = 1 ∧ wfDB claim2ResultDb :=
  claim2_unique_record_after_parse emptyDB exampleUpload "alice" claim2ResultDb
    exampleUuid (by decide) rfl

/-- Claim C3, settled against the code at the failing input: the claim says
an hdf5-sniffed upload fails with the 501 UnsupportedFormat error raised by
the alternate extractor's section readers.  In the source,
`Hdf5ContainerParser` overrides only the two section readers and leaves the
abstract `_read_filelist` unimplemented, so Python's ABC machinery rejects
`Hdf5ContainerParser()` itself with a `TypeError` before any method can run;
the orchestrator's generic handler turns that into a 500 — the file manifest
is indeed never extracted, but the 501 error text is unreachable. -/
theorem claim3_hdf5_upload_yields_500 (db : DB) (st : Storage) (u : Upload)
    (owner : String) (h : u.mime = "application/x-hdf") :
    parse_container_file db st u owner =
      (db, st, .error ⟨500,
        "Unknown error! Please report to your administrator providing these information:\n\nCan't instantiate abstract class Hdf5ContainerParser with abstract method _read_filelist"⟩) := by
  unfold parse_container_file pipelineBody
  rw [h]
  simp [translateErr, pyErrStr]

/-- Witness for claim C3 at a concrete upload. -/
theorem claim3_hdf5_upload_yields_500_witness :
    parse_container_file emptyDB [] hdf5Upload "alice" =
      (emptyDB, [], .error ⟨500,
        "Unknown error! Please report to your administrator providing these information:\n\nCan't instantiate abstract class Hdf5ContainerParser with abstract method _read_filelist"⟩) :=
  claim3_hdf5_upload_yields_500 emptyDB [] hdf5Upload "alice" rfl

/-- Claim C4: every declared model version that parses and lies strictly
below the minimum supported version makes constraint resolution fail with
exactly the 400 `MetaDBError` whose message carries the offending declared
version and the minimum required version — never a different error. -/
theorem claim4_version_too_old (mv : String) (v : List Nat)
    (hp : parseVersion mv = some v)
    (hlt : verLT v minSupportedVersion = true) :
    resolveConstraints mv =
      .error (.metaDB 400
        ("You tried to upload a dataset complying scidatacontainer model version "
          ++ mv ++ " but the server requires a minimum model version of "
          ++ minVersionString)) ∧
    minVersionString = "0.3" := by
  constructor
  · unfold resolveConstraints
    rw [hp]
    simp only
    rw [if_pos hlt]
    rfl
  · decide

/-- Witness for claim C4 at declared version "0.2". -/
theorem claim4_version_too_old_witness :
    resolveConstraints "0.2" =
      .error (.metaDB 400
        ("You tried to upload a dataset complying scidatacontainer model version "
          ++ "0.2" ++ " but the server requires a minimum model version of "
          ++ minVersionString)) ∧
    minVersionString = "0.3" :=
  claim4_version_too_old "0.2" [0, 2] (by decide) (by decide)

/-- Claim C5: when a field is declared required in the resolved constraint
set of a section and its key is absent from the input mapping — and the
fields listed before it validate without error — validation fails with the
400 `MetaDBError` naming exactly that field and the section file. -/
theorem claim5_missing_required_field (db db₁ : DB) (mv file : String)
    (cs : List (String × Items)) (pre post : Items) (f : String) (t : Coercer)
    (ind : List (String × JValue)) (o₁ : List (String × DomValue))
    (hres : resolveConstraints mv = .ok cs)
    (hsec : cs.lookup file = some (pre ++ (f, t, true) :: post))
    (hpre : validateItems db file pre ind = .ok (db₁, o₁))
    (habs : hasKey ind f = false) :
    parse_validate db mv file ind =
      .error (.metaDB 400
        ("Attribute '" ++ f ++ "' required in " ++ file ++ ".json.")) := by
  have hstep : validateItems db₁ file ((f, t, true) :: post) ind =
      .error (.metaDB 400 (missingFieldMsg f file)) := by
    simp only [validateItems]
    rw [validateStep_missing db₁ file f t ind habs]
  unfold parse_validate
  rw [hres]
  simp only
  rw [hsec]
  simp only
  rw [validateItems_append file ind pre ((f, t, true) :: post) db, hpre]
  simp only
  rw [hstep]
  rfl

/-- The prefix of the meta section before the `email` field. -/
def claim5Pre : Items := [("author", .toStr, true)]

/-- The suffix of the meta section after the `email` field. -/
def claim5Post : Items :=
  [("comment", .toStr, false), ("title", .toStr, true),
   ("keywords", .toKeywords, false), ("description", .toStr, false),
   ("timestamp", .toStr, false), ("doi", .toStr, false),
   ("license", .toStr, false)]

/-- Witness for claim C5: a meta section carrying only `author` is rejected
naming the missing required field `email`. -/
theorem claim5_missing_required_field_witness :
    parse_validate emptyDB "1.0" "meta" [("author", .jstr "A")] =
      .error (.metaDB 400
        ("Attribute '" ++ "email" ++ "' required in " ++ "meta" ++ ".json.")) :=
  claim5_missing_required_field emptyDB emptyDB "1.0" "meta" constraints_0_5_1
    claim5Pre claim5Post "email" .toStr [("author", .jstr "A")]
    [("author", .str "A")] rfl rfl rfl rfl

/-- The content dictionary whose `created` value no coercer accepts. -/
def claim6BadContent : List (String × JValue) :=
  [("uuid", .jstr "22222222-1111-1111-1111-111111111111"),
   ("containerType", .jdict [("name", .jstr "t")]),
   ("created", .jstr "garbage")]

/-- Counterexample to claim C6 as stated: the coercion-failure error for the
field `created` is exactly the 400 message below, which includes the
rejected raw value `garbage` but does NOT name the failing field — the
string `created` does not occur in it. -/
theorem claim6_counterexample :
    parse_validate emptyDB "1.0" "content" claim6BadContent =
      .error (.metaDB 400
        "Failed to convert 'garbage' using the default parser. Make sure it has the right type.") ∧
    ¬ List.IsInfix "created".data
      "Failed to convert 'garbage' using the default parser. Make sure it has the right type.".data := by
  constructor
  · rfl
  · set_option maxRecDepth 8192 in decide

/-- Claim C6 as amended: when a field's coercer raises `ValueError` on a
malformed non-empty string value (and the fields before it validate without
error), validation fails with the 400 `MetaDBError` whose message includes
the rejected raw value — but, as the counterexample shows, not the field
name. -/
theorem claim6_invalid_value_message (db db₁ : DB) (mv file : String)
    (cs : List (String × Items)) (pre post : Items) (f : String) (t : Coercer)
    (req : Bool) (ind : List (String × JValue)) (o₁ : List (String × DomValue))
    (s m : String)
    (hres : resolveConstraints mv = .ok cs)
    (hsec : cs.lookup file = some (pre ++ (f, t, req) :: post))
    (hpre : validateItems db file pre ind = .ok (db₁, o₁))
    (hv : dlookup ind f = some (.jstr s))
    (ht : truthy (.jstr s) = true)
    (hfail : applyCoercer t db₁ (.jstr s) = .error (.valueError m)) :
    parse_validate db mv file ind =
      .error (.metaDB 400 ("Failed to convert '" ++ s ++
        "' using the default parser. Make sure it has the right type.")) := by
  have hk := dlookup_some_hasKey hv
  have hstep : validateStep db₁ file (f, t, req) ind =
      .error (.metaDB 400 (failedConvertMsg s)) := by
    simp [validateStep, hk, hv, ht, hfail]
  have hloop : validateItems db₁ file ((f, t, req) :: post) ind =
      .error (.metaDB 400 (failedConvertMsg s)) := by
    simp only [validateItems]
    rw [hstep]
  unfold parse_validate
  rw [hres]
  simp only
  rw [hsec]
  simp only
  rw [validateItems_append file ind pre ((f, t, req) :: post) db, hpre]
  simp only
  rw [hloop]
  rfl

/-- The prefix of the content section before the `created` field. -/
def claim6Pre : Items :=
  [("uuid", .toStr, true), ("replaces", .toReplaces, false),
   ("containerType", .toContainerType, true)]

/-- The suffix of the content section after the `created` field. -/
def claim6Post : Items :=
  [("modified", .toDatetime, true), ("static", .toBool, true),
   ("complete", .toBool, true), ("hash", .toStr, false),
   ("usedSoftware", .toUsedSoftware, false), ("modelVersion", .toStr, true)]

/-- The database and output after validating the fields before `created` of
`claim6BadContent`. -/
def claim6Mid : DB × List (String × DomValue) :=
  match validateItems emptyDB "content" claim6Pre claim6BadContent with
  | .ok p => p
  | .error _ => (emptyDB, [])

/-- Witness for the amended claim C6 at the concrete malformed input. -/
theorem claim6_invalid_value_message_witness :
    parse_validate emptyDB "1.0" "content" claim6BadContent =
      .error (.metaDB 400 ("Failed to convert '" ++ "garbage" ++
        "' using the default parser. Make sure it has the right type.")) :=
  claim6_invalid_value_message emptyDB claim6Mid.1 "1.0" "content"
    constraints_0_5_1 claim6Pre claim6Post "created" .toDatetime true
    claim6BadContent claim6Mid.2 "garbage" "Invalid isoformat string: 'garbage'"
    rfl rfl rfl rfl rfl rfl

/-- Claim C7, settled against the code at the failing input: the claim says
`timestamp`, `doi` and `license` belong only to constraint sets resolved for
versions at or above 0.5.1.  Because `_constraints_0_5_1 =
_constraints_0_3.copy()` is a shallow copy, the subsequent update of its
`meta` dict mutates the dict shared with `_constraints_0_3`: the declared
version "0.4" — which the resolver sends to the "0.3" table entry — receives
a meta constraint set containing all three fields.  (The superset half of
the claim holds: both table entries hold the same sets.) -/
theorem claim7_meta_fields_eval :
    resolveConstraints "0.4" = .ok constraints_0_3 ∧
    parseVersion "0.4" = some [0, 4] ∧
    verLT [0, 4] [0, 5, 1] = true ∧
    constraints_0_3.lookup "meta" = some metaItems ∧
    (metaItems.map Prod.fst).contains "timestamp" = true ∧
    (metaItems.map Prod.fst).contains "doi" = true ∧
    (metaItems.map Prod.fst).contains "license" = true ∧
    constraints_0_5_1 = constraints_0_3 := by
  exact ⟨rfl, by decide, by decide, by decide, by decide, by decide, by decide, rfl⟩

/-- A valid `content.json` dictionary carrying a reserved test uuid. -/
def claim8Content : List (String × JValue) :=
  [("uuid", .jstr "00000000-0000-0000-0000-000000000001"),
   ("containerType", .jdict [("name", .jstr "measurement")]),
   ("created", .jstr "2024-01-01T00:00:00"),
   ("modified", .jstr "2024-01-02T10:30:00"),
   ("static", .jbool true),
   ("complete", .jbool true),
   ("modelVersion", .jstr "1.0")]

/-- A valid ZIP upload whose declared uuid is the reserved test identifier. -/
def claim8Upload : Upload :=
  { mime := "application/zip"
    members := [⟨"content.json", 100, some (.jdict claim8Content)⟩,
                ⟨"meta.json", 50, some (.jdict exampleMetaDict)⟩]
    size := 321 }

/-- Counterexample to claim C8 as stated: ingesting a valid container with
the reserved test uuid into an empty database does route to the test fixture
(outcome: no record), writes nothing to storage — but the claim's "no
database record is created or mutated" fails: the manifest extraction,
which runs before the test-uuid check, creates two embedded-file rows, and
the transaction commits them on this return path. -/
theorem claim8_counterexample :
    (parse_container_file emptyDB [] claim8Upload "alice").2.2 = .ok none ∧
    (parse_container_file emptyDB [] claim8Upload "alice").2.1 = [] ∧
    (parse_container_file emptyDB [] claim8Upload "alice").1.files.length = 2 ∧
    emptyDB.files.length = 0 :=
  ⟨rfl, rfl, rfl, rfl⟩

/-- Claim C8 as amended: when extraction and validation succeed and the
validated uuid carries the reserved test prefix, the orchestrator routes to
the test-fixture resolver and stops — the no-record signal is returned, no
raw-bytes file is written to storage, and the identity branch neither
creates, updates nor deletes any dataset row: the committed database is
exactly the post-extraction/validation state (which, per the
counterexample, may already contain rows created by the coercers and the
manifest walk). -/
theorem claim8_test_uuid_routing (db : DB) (st : Storage) (u : Upload)
    (user : String) (dbv : DB) (d : List (String × DomValue)) (uuid : String)
    (hm : u.mime = "application/zip")
    (hv : zipValidatePhase db u = .ok (dbv, d))
    (hu : dvlookup d "uuid" = some (.str uuid))
    (hp : strStartsWith uuid testUuidPrefix = true) :
    parse_container_file db st u user = (dbv, st, .ok none) := by
  have hz : zipParse db u user = .ok (dbv, none) := by
    unfold zipParse
    rw [hv]
    simp only
    unfold identityBranch
    rw [hu]
    simp only
    rw [if_pos hp]
    rfl
  unfold parse_container_file pipelineBody
  rw [hm]
  simp only [beq_self_eq_true, if_true]
  rw [hz]

/-- The post-validation state of the test-uuid upload. -/
def claim8Phase : DB × List (String × DomValue) :=
  match zipValidatePhase emptyDB claim8Upload with
  | .ok p => p
  | .error _ => (emptyDB, [])

/-- Witness for the amended claim C8 at the concrete test-uuid upload. -/
theorem claim8_test_uuid_routing_witness :
    parse_container_file emptyDB [] claim8Upload "alice" =
      (claim8Phase.1, [], .ok none) :=
  claim8_test_uuid_routing emptyDB [] claim8Upload "alice" claim8Phase.1
    claim8Phase.2 "00000000-0000-0000-0000-000000000001" rfl rfl rfl (by decide)

/-- Claim C9: whenever the transaction body fails — at any stage after
entry — the orchestrator leaves the database exactly as it was (Django's
`transaction.atomic` rolls every mutation of this ingestion back, so no
partial record is ever committed; in the source every failing path raises
before the raw-bytes write, so storage is untouched too), and the
except-clauses translate the exception: a domain `MetaDBError` propagates
unchanged, store integrity and validation errors become 400 payloads, and
any other exception becomes the generic 500 payload. -/
theorem claim9_rollback_and_translation (db : DB) (st : Storage) (u : Upload)
    (owner : String) (e : PyErr)
    (h : pipelineBody db st u owner = .error e) :
    parse_container_file db st u owner = (db, st, .error (translateErr e)) ∧
    (∀ c msg, e = PyErr.metaDB c msg → translateErr e = ⟨c, msg⟩) ∧
    (∀ msg, e = PyErr.integrityError msg → (translateErr e).error_code = 400) ∧
    (∀ msg, e = PyErr.validationError msg → (translateErr e).error_code = 400) ∧
    ((∀ c msg, e ≠ PyErr.metaDB c msg) →
     (∀ msg, e ≠ PyErr.integrityError msg) →
     (∀ msg, e ≠ PyErr.validationError msg) →
     (translateErr e).error_code = 500) := by
  refine ⟨?_, ?_, ?_, ?_, ?_⟩
  · unfold parse_container_file
    rw [h]
  · intro c msg he; subst he; rfl
  · intro msg he; subst he; rfl
  · intro msg he; subst he; rfl
  · intro h1 h2 h3
    cases e with
    | metaDB c msg => exact absurd rfl (h1 c msg)
    | integrityError msg => exact absurd rfl (h2 msg)
    | validationError msg => exact absurd rfl (h3 msg)
    | valueError msg => rfl
    | typeError msg => rfl
    | keyError k => rfl
    | attributeError msg => rfl

/-- Witness for claim C9 at an upload of unrecognized MIME type: the 415
domain error propagates unchanged and the state is untouched. -/
theorem claim9_rollback_and_translation_witness :
    parse_container_file emptyDB [] plainUpload "alice" =
      (emptyDB, [], .error (translateErr
        (PyErr.metaDB 415 "File format has to be hdf5 or zip!"))) ∧
    translateErr (PyErr.metaDB 415 "File format has to be hdf5 or zip!") =
      ⟨415, "File format has to be hdf5 or zip!"⟩ :=
  ⟨(claim9_rollback_and_translation emptyDB [] plainUpload "alice" _ rfl).1,
   (claim9_rollback_and_translation emptyDB [] plainUpload "alice" _ rfl).2.1
     415 "File format has to be hdf5 or zip!" rfl⟩

/-- Claim C10: a field that is required in the resolved constraint set but
present with a FALSY value (false, 0, empty string, null, empty collection)
passes the required check, skips its coercer, and is dropped: the validation
loop behaves exactly as if the field's constraint entry were absent, and the
field's renamed key is missing from any successful validation output — a
required boolean such as `static: false` is silently dropped rather than
stored. -/
theorem claim10_falsy_required_dropped (db : DB) (mv file : String)
    (cs : List (String × Items)) (pre post : Items) (f : String) (t : Coercer)
    (ind : List (String × JValue)) (v : JValue)
    (hres : resolveConstraints mv = .ok cs)
    (hsec : cs.lookup file = some (pre ++ (f, t, true) :: post))
    (hv : dlookup ind f = some v)
    (ht : truthy v = false)
    (hinj : ∀ q ∈ pre ++ post, camelToSnake q.1 ≠ camelToSnake f) :
    validateItems db file (pre ++ (f, t, true) :: post) ind =
      validateItems db file (pre ++ post) ind ∧
    (∀ db' out, parse_validate db mv file ind = .ok (db', out) →
      dvlookup out (camelToSnake f) = none) := by
  have heq : ∀ db₀ : DB, validateItems db₀ file (pre ++ (f, t, true) :: post) ind =
      validateItems db₀ file (pre ++ post) ind := by
    intro db₀
    rw [validateItems_append file ind pre ((f, t, true) :: post) db₀,
        validateItems_append file ind pre post db₀]
    cases h1 : validateItems db₀ file pre ind with
    | error e => rfl
    | ok p =>
      obtain ⟨db₁, o₁⟩ := p
      simp only
      have hmid : validateItems db₁ file ((f, t, true) :: post) ind =
          validateItems db₁ file post ind := by
        simp only [validateItems]
        rw [validateStep_falsy db₁ file f t true ind v hv ht]
      rw [hmid]
  refine ⟨heq db, ?_⟩
  intro db' out hok
  unfold parse_validate at hok
  rw [hres] at hok
  simp only at hok
  rw [hsec] at hok
  simp only at hok
  rw [heq db] at hok
  have hkeys := validateItems_out_keys file ind (pre ++ post) db db' out hok
  have hfind : out.find? (fun p => p.1 == camelToSnake f) = none := by
    rw [List.find?_eq_none]
    intro p hp hbeq
    obtain ⟨q, hq, hpq⟩ := hkeys p hp
    rw [beq_iff_eq] at hbeq
    exact hinj q hq (by rw [← hpq, hbeq])
  unfold dvlookup
  rw [hfind]
  rfl

/-- The prefix of the content section before the `static` field. -/
def claim10Pre : Items :=
  [("uuid", .toStr, true), ("replaces", .toReplaces, false),
   ("containerType", .toContainerType, true), ("created", .toDatetime, true),
   ("modified", .toDatetime, true)]

/-- The suffix of the content section after the `static` field. -/
def claim10Post : Items :=
  [("complete", .toBool, true), ("hash", .toStr, false),
   ("usedSoftware", .toUsedSoftware, false), ("modelVersion", .toStr, true)]

/-- `exampleContentDict` with the required boolean `static` set to false. -/
def claim10FalsyContent : List (String × JValue) :=
  [("uuid", .jstr "11111111-1111-1111-1111-111111111111"),
   ("containerType", .jdict [("name", .jstr "measurement")]),
   ("created", .jstr "2024-01-01T00:00:00"),
   ("modified", .jstr "2024-01-02T10:30:00"),
   ("static", .jbool false),
   ("complete", .jbool true),
   ("modelVersion", .jstr "1.0")]

/-- The successful validation result of the falsy-static content section. -/
def claim10Result : DB × List (String × DomValue) :=
  match parse_validate emptyDB "1.0" "content" claim10FalsyContent with
  | .ok p => p
  | .error _ => (emptyDB, [])

/-- Witness for claim C10: with `static: false` the loop equals the loop
without the `static` entry, and the validated output of the concrete run
has no `static` key. -/
theorem claim10_falsy_required_dropped_witness :
    validateItems emptyDB "content" (claim10Pre ++ ("static", .toBool, true) :: claim10Post)
      claim10FalsyContent =
      validateItems emptyDB "content" (claim10Pre ++ claim10Post) claim10FalsyContent ∧
    dvlookup claim10Result.2 (camelToSnake "static") = none :=
  ⟨(claim10_falsy_required_dropped emptyDB "1.0" "content" constraints_0_5_1
      claim10Pre claim10Post "static" .toBool claim10FalsyContent (.jbool false)
      rfl rfl rfl rfl (by decide)).1,
   (claim10_falsy_required_dropped emptyDB "1.0" "content" constraints_0_5_1
      claim10Pre claim10Post "static" .toBool claim10FalsyContent (.jbool false)
      rfl rfl rfl rfl (by decide)).2 claim10Result.1 claim10Result.2 rfl⟩

end SciData
